import Mathlib

/-!
# Verification of the modpack installer core (main.rs)

Shallow embedding of the installer's core pipeline:
file-system paths are modelled as lists of components, the network
resolvers as explicit function arguments, panics as `Option`/`Except`
failures.  Every definition is translated from `src/main.rs`; the only
definitions written from the specification's words are explicitly marked
`Modelled from the spec`.
-/

namespace Installer

/-- `CURRENT_MANIFEST_VERSION` constant from main.rs line 31. -/
def CURRENT_MANIFEST_VERSION : Int := 3

/-- `CONCURRENCY` constant from main.rs line 34. -/
def CONCURRENCY : Nat := 14

/-- `default_id()` from main.rs. -/
def default_id : String := "default"

/-- A file-system path, modelled as its list of components
(`PathBuf` in the Rust source). -/
abbrev FsPath := List String

/-- `Path::parent()`: drop the last component; `None` on an empty path. -/
def getParent (p : FsPath) : Option FsPath :=
  if p.isEmpty then none else some p.dropLast

/-- `path.parent().parent()` as used by `validate_item_path!`. -/
def grandParent (p : FsPath) : Option FsPath :=
  (getParent p).bind getParent

/-- `Author` struct from main.rs. -/
structure Author where
  name : String
  link : String
deriving DecidableEq, Repr

/-- The common shape of the `Mod`, `Shaderpack` and `Resourcepack` structs
from main.rs (they are field-for-field identical; the source generates one
`Downloadable` impl for each with the same macro). -/
structure Item where
  name : String
  source : String
  location : String
  version : String
  path : Option FsPath
  id : String
  authors : List Author
deriving DecidableEq, Repr

/-- `Loader` struct from main.rs lines 319-324. -/
structure Loader where
  type : String
  version : String
  minecraft_version : String
deriving DecidableEq, Repr

/-- `Feature` struct from main.rs. -/
structure Feature where
  id : String
  name : String
  default : Bool
deriving DecidableEq, Repr

/-- `Include` struct from main.rs (named `IncludeRef` here because
`include` is a Lean keyword). -/
structure IncludeRef where
  location : String
  id : String
deriving DecidableEq, Repr

/-- `Included` struct from main.rs lines 206-210: hash plus the files a
bundle extracted. -/
structure Included where
  md5 : String
  files : List FsPath
deriving DecidableEq, Repr

/-- `Manifest` struct from main.rs lines 371-396.  `included_files`
(a `HashMap` in the source) is modelled as an association list; the field
`include` of the source is called `includeList` because `include` is a
Lean keyword. -/
structure Manifest where
  manifest_version : Int
  modpack_version : String
  name : String
  subtitle : String
  description : String
  icon : Bool
  uuid : String
  loader : Loader
  mods : List Item
  shaderpacks : List Item
  resourcepacks : List Item
  includeList : List IncludeRef
  features : List Feature
  enabled_features : List String
  included_files : Option (List (String × Included))
  source : Option String
  installer_path : Option String
  max_mem : Int
  min_mem : Int
  java_args : Option String
deriving DecidableEq, Repr

/-! ## Download orchestrator (`download_helper`, main.rs lines 928-974)

The per-item closure of `download_helper` is `processItem`.  The
network/`Downloadable::download` call is abstracted into an explicit
`resolve` function argument returning the final on-disk path (`none`
models a panic inside the resolver).  A `DLResult` records, besides the
rebuilt item, whether this item invoked its downloader (`fetched`) and
which file, if any, it removed (`deleted`); a `none` overall result
models a panic (`validate_item_path!` or resolver failure), which aborts
the whole operation. -/

structure DLResult where
  item : Item
  fetched : Bool
  deleted : Option FsPath
deriving DecidableEq, Repr

/-- `validate_item_path!` (main.rs lines 880-901): an item with a path
passes only if the grandparent of the path is the modpack root (a missing
parent or grandparent is a panic, as is a mismatch); an item without a
path passes trivially. -/
def validateOk (root : FsPath) (it : Item) : Bool :=
  match it.path with
  | none => true
  | some p => decide (grandParent p = some root)

/-- The body of the closure mapped over the items in `download_helper`:
if the item has no path and its id is enabled, download and set the path;
otherwise run `validate_item_path!` (panic modelled as `none`), then
delete the file and clear the path when the id is disabled, else keep the
path unchanged. -/
def processItem (enabled : List String) (root : FsPath)
    (resolve : Item → Option FsPath) (it : Item) : Option DLResult :=
  if it.path.isNone && enabled.contains it.id then
    (resolve it).map (fun q => ⟨{ it with path := some q }, true, none⟩)
  else if validateOk root it then
    if !(enabled.contains it.id) && it.path.isSome then
      some ⟨{ it with path := none }, false, it.path⟩
    else
      some ⟨it, false, none⟩
  else none

/-- `download_helper` (main.rs lines 928-974): maps `processItem` over the
item list; any single panic aborts the whole call (`Option.mapM`).  The
source collects results with `buffer_unordered(CONCURRENCY)`; the model
fixes the input ordering, which the claims do not depend on. -/
def download_helper (enabled : List String) (root : FsPath)
    (resolve : Item → Option FsPath) (items : List Item) :
    Option (List DLResult) :=
  items.mapM (processItem enabled root resolve)

/-- Names of the items that invoked their downloader in a run. -/
def resolvedBy (rs : List DLResult) : List String :=
  (rs.filter (fun r => r.fetched)).map (fun r => r.item.name)

/-! ## Helper lemmas about `Option`-monadic `mapM` -/

theorem mapM_option_spec {α β : Type} (f : α → Option β) (l : List α) :
    ∀ r : List β, l.mapM f = some r →
      r.length = l.length ∧
      ∀ i (h1 : i < l.length) (h2 : i < r.length),
        f (l.get ⟨i, h1⟩) = some (r.get ⟨i, h2⟩) := by
  induction l with
  | nil =>
    intro r h
    simp only [List.mapM_nil, pure, Option.some.injEq] at h
    subst h
    refine ⟨rfl, ?_⟩
    intro i h1 _
    exact absurd h1 (by simp)
  | cons a l ih =>
    intro r h
    rw [List.mapM_cons] at h
    cases hfa : f a with
    | none => rw [hfa] at h; simp at h
    | some b =>
      rw [hfa] at h
      cases hml : l.mapM f with
      | none => rw [hml] at h; simp at h
      | some bs =>
        rw [hml] at h
        simp only [Option.bind_eq_bind, Option.some_bind, pure,
          Option.some.injEq] at h
        subst h
        obtain ⟨hlen, hidx⟩ := ih bs hml
        refine ⟨by simp [hlen], ?_⟩
        intro i h1 h2
        cases i with
        | zero => simpa using hfa
        | succ i =>
          simpa using hidx i (by simpa using h1) (by simpa using h2)

theorem mapM_option_none {α β : Type} (f : α → Option β) (l : List α) :
    ∀ i (h1 : i < l.length), f (l.get ⟨i, h1⟩) = none → l.mapM f = none := by
  induction l with
  | nil => intro i h1; simp at h1
  | cons a l ih =>
    intro i h1 hnone
    rw [List.mapM_cons]
    cases i with
    | zero =>
      simp only [List.get] at hnone
      rw [hnone]
      rfl
    | succ i =>
      cases hfa : f a with
      | none => rfl
      | some b =>
        have : l.mapM f = none := ih i (by simpa using h1) (by simpa using hnone)
        rw [this]
        rfl

/-! ## Per-item behaviour of the orchestrator -/

/-- Case analysis of `processItem`: the four enable/path cases of the
orchestrator. -/
theorem processItem_cases (enabled : List String) (root : FsPath)
    (resolve : Item → Option FsPath) (it : Item) (r : DLResult)
    (h : processItem enabled root resolve it = some r) :
    (it.path = none → enabled.contains it.id = true →
      r.fetched = true ∧ ∃ q, resolve it = some q ∧ r.item.path = some q) ∧
    (it.path.isSome = true → enabled.contains it.id = true →
      r.item.path = it.path ∧ r.fetched = false ∧ r.deleted = none) ∧
    (it.path.isSome = true → enabled.contains it.id = false →
      r.item.path = none ∧ r.deleted = it.path ∧ r.fetched = false) ∧
    (it.path = none → enabled.contains it.id = false →
      r.fetched = false ∧ r.item.path = none ∧ r.deleted = none) := by
  cases hp : it.path with
  | none =>
    cases hen : enabled.contains it.id with
    | true =>
      simp only [processItem, hp, hen, Option.isNone_none, Bool.and_self,
        if_true] at h
      cases hres : resolve it with
      | none => rw [hres] at h; cases h
      | some q =>
        rw [hres] at h
        injection h with h
        subst h
        exact ⟨fun _ _ => ⟨rfl, q, rfl, rfl⟩,
          fun hx _ => Bool.noConfusion hx,
          fun hx _ => Bool.noConfusion hx,
          fun _ hy => Bool.noConfusion hy⟩
    | false =>
      have hv : validateOk root it = true := by
        unfold validateOk; rw [hp]
      simp only [processItem, hp, hen, Option.isNone_none, Bool.and_false,
        Bool.false_eq_true, if_false, hv, if_true, Bool.not_false,
        Option.isSome_none, Bool.and_false] at h
      injection h with h
      subst h
      exact ⟨fun _ hy => Bool.noConfusion hy,
        fun hx _ => Bool.noConfusion hx,
        fun hx _ => Bool.noConfusion hx,
        fun _ _ => ⟨rfl, hp, rfl⟩⟩
  | some p =>
    have hno : it.path.isNone = false := by rw [hp]; rfl
    have hso : it.path.isSome = true := by rw [hp]; rfl
    simp only [processItem, hno, Bool.false_and, Bool.false_eq_true,
      if_false] at h
    cases hv : validateOk root it with
    | false => rw [hv] at h; cases h
    | true =>
      rw [hv] at h
      simp only [if_true] at h
      cases hen : enabled.contains it.id with
      | true =>
        rw [hen] at h
        simp only [Bool.not_true, Bool.false_and, Bool.false_eq_true,
          if_false] at h
        injection h with h
        subst h
        exact ⟨fun hx _ => Option.noConfusion hx,
          fun _ _ => ⟨hp, rfl, rfl⟩,
          fun _ hy => Bool.noConfusion hy,
          fun hx _ => Option.noConfusion hx⟩
      | false =>
        rw [hen] at h
        simp only [Bool.not_false, Bool.true_and, hso, if_true] at h
        injection h with h
        subst h
        exact ⟨fun hx _ => Option.noConfusion hx,
          fun _ hy => Bool.noConfusion hy,
          fun _ _ => ⟨rfl, hp, rfl⟩,
          fun hx _ => Option.noConfusion hx⟩

/-- `processItem` on an item with an existing path succeeds only when the
grandparent of the path is the modpack root. -/
theorem processItem_validates (enabled : List String) (root : FsPath)
    (resolve : Item → Option FsPath) (it : Item) (p : FsPath)
    (hp : it.path = some p) :
    (∀ r, processItem enabled root resolve it = some r →
      grandParent p = some root) ∧
    (grandParent p ≠ some root →
      processItem enabled root resolve it = none) := by
  have hno : it.path.isNone = false := by rw [hp]; rfl
  have hvdef : validateOk root it = decide (grandParent p = some root) := by
    unfold validateOk; rw [hp]
  constructor
  · intro r h
    simp only [processItem, hno, Bool.false_and, Bool.false_eq_true,
      if_false, hvdef] at h
    by_cases hgp : grandParent p = some root
    · exact hgp
    · rw [decide_eq_false hgp] at h
      simp only [Bool.false_eq_true, if_false] at h
      cases h
  · intro hne
    simp only [processItem, hno, Bool.false_and, Bool.false_eq_true,
      if_false, hvdef, decide_eq_false hne]

/-!  ## Claim C1: path containment in the orchestrator -/

/-- C1: for every item processed by `download_helper` that already has a
resolved path, the grandparent directory of the path equals the modpack
root whenever the run succeeds; and if the grandparent is not the modpack
root the whole operation fails fatally (`none`), so the offending path is
never kept or used. -/
theorem download_helper_path_containment
    (enabled : List String) (root : FsPath) (resolve : Item → Option FsPath)
    (items : List Item) (i : Nat) (h1 : i < items.length) (p : FsPath)
    (hp : (items.get ⟨i, h1⟩).path = some p) :
    (∀ rs, download_helper enabled root resolve items = some rs →
      grandParent p = some root) ∧
    (grandParent p ≠ some root →
      download_helper enabled root resolve items = none) := by
  constructor
  · intro rs h
    simp only [download_helper] at h
    obtain ⟨hlen, hidx⟩ := mapM_option_spec _ _ _ h
    have h2 : i < rs.length := by rw [hlen]; exact h1
    exact (processItem_validates enabled root resolve _ p hp).1 _
      (hidx i h1 h2)
  · intro hne
    simp only [download_helper]
    exact mapM_option_none _ _ i h1
      ((processItem_validates enabled root resolve _ p hp).2 hne)

/-- Witness for C1 at a concrete input: an item whose path sits outside
the modpack root makes the whole `download_helper` call fail. -/
theorem download_helper_path_containment_witness :
    (([(⟨"A", "ddl", "locA", "1.0", some ["elsewhere", "mods", "b.jar"],
        "default", []⟩ : Item)].get ⟨0, by decide⟩).path =
      some ["elsewhere", "mods", "b.jar"]) ∧
    grandParent ["elsewhere", "mods", "b.jar"] ≠ some ["home", "pack"] ∧
    download_helper ["default"] ["home", "pack"] (fun _ => none)
      [⟨"A", "ddl", "locA", "1.0", some ["elsewhere", "mods", "b.jar"],
        "default", []⟩] = none := by
  refine ⟨rfl, by decide, ?_⟩
  exact (download_helper_path_containment ["default"] ["home", "pack"]
    (fun _ => none)
    [⟨"A", "ddl", "locA", "1.0", some ["elsewhere", "mods", "b.jar"],
      "default", []⟩] 0 (by decide) ["elsewhere", "mods", "b.jar"] rfl).2
    (by decide)

/-!  ## Claim C2: feature gating in the orchestrator -/

/-- C2: `download_helper` returns one output item per input item, where an
item with no path and enabled id is resolved and gets the resolver result
as its path; an item with a path and enabled id keeps its path unchanged
with no re-download; an item with a path and disabled id has its file
deleted and its path cleared; and an item with no path and disabled id is
never resolved. -/
theorem download_helper_feature_gating
    (enabled : List String) (root : FsPath) (resolve : Item → Option FsPath)
    (items : List Item) (rs : List DLResult)
    (h : download_helper enabled root resolve items = some rs) :
    rs.length = items.length ∧
    ∀ i (h1 : i < items.length) (h2 : i < rs.length),
      ((items.get ⟨i, h1⟩).path = none →
          enabled.contains (items.get ⟨i, h1⟩).id = true →
        (rs.get ⟨i, h2⟩).fetched = true ∧
        ∃ q, resolve (items.get ⟨i, h1⟩) = some q ∧
          (rs.get ⟨i, h2⟩).item.path = some q) ∧
      ((items.get ⟨i, h1⟩).path.isSome = true →
          enabled.contains (items.get ⟨i, h1⟩).id = true →
        (rs.get ⟨i, h2⟩).item.path = (items.get ⟨i, h1⟩).path ∧
        (rs.get ⟨i, h2⟩).fetched = false ∧
        (rs.get ⟨i, h2⟩).deleted = none) ∧
      ((items.get ⟨i, h1⟩).path.isSome = true →
          enabled.contains (items.get ⟨i, h1⟩).id = false →
        (rs.get ⟨i, h2⟩).item.path = none ∧
        (rs.get ⟨i, h2⟩).deleted = (items.get ⟨i, h1⟩).path ∧
        (rs.get ⟨i, h2⟩).fetched = false) ∧
      ((items.get ⟨i, h1⟩).path = none →
          enabled.contains (items.get ⟨i, h1⟩).id = false →
        (rs.get ⟨i, h2⟩).fetched = false ∧
        (rs.get ⟨i, h2⟩).item.path = none ∧
        (rs.get ⟨i, h2⟩).deleted = none) := by
  simp only [download_helper] at h
  obtain ⟨hlen, hidx⟩ := mapM_option_spec _ _ _ h
  refine ⟨hlen, ?_⟩
  intro i h1 h2
  exact processItem_cases enabled root resolve _ _ (hidx i h1 h2)

/-- Witness for C2: a concrete four-item run exercising all four cases
(resolve, keep, delete, skip). -/
theorem download_helper_feature_gating_witness :
    download_helper ["default"] ["home", "pack"]
      (fun it => some ["home", "pack", "mods", it.name])
      [⟨"A", "modrinth", "locA", "1.0", none, "default", []⟩,
       ⟨"B", "ddl", "locB", "1.0",
         some ["home", "pack", "mods", "B.jar"], "default", []⟩,
       ⟨"C", "ddl", "locC", "1.0",
         some ["home", "pack", "mods", "C.jar"], "optC", []⟩,
       ⟨"D", "mediafire", "locD", "1.0", none, "optD", []⟩] =
      some
        [⟨⟨"A", "modrinth", "locA", "1.0",
            some ["home", "pack", "mods", "A"], "default", []⟩, true, none⟩,
         ⟨⟨"B", "ddl", "locB", "1.0",
            some ["home", "pack", "mods", "B.jar"], "default", []⟩,
           false, none⟩,
         ⟨⟨"C", "ddl", "locC", "1.0", none, "optC", []⟩, false,
           some ["home", "pack", "mods", "C.jar"]⟩,
         ⟨⟨"D", "mediafire", "locD", "1.0", none, "optD", []⟩,
           false, none⟩] ∧
    ([⟨⟨"A", "modrinth", "locA", "1.0",
         some ["home", "pack", "mods", "A"], "default", []⟩, true, none⟩,
      ⟨⟨"B", "ddl", "locB", "1.0",
         some ["home", "pack", "mods", "B.jar"], "default", []⟩,
        false, none⟩,
      ⟨⟨"C", "ddl", "locC", "1.0", none, "optC", []⟩, false,
        some ["home", "pack", "mods", "C.jar"]⟩,
      ⟨⟨"D", "mediafire", "locD", "1.0", none, "optD", []⟩,
        false, none⟩] : List DLResult).length = 4 := by
  have h : download_helper ["default"] ["home", "pack"]
      (fun it => some ["home", "pack", "mods", it.name])
      [⟨"A", "modrinth", "locA", "1.0", none, "default", []⟩,
       ⟨"B", "ddl", "locB", "1.0",
         some ["home", "pack", "mods", "B.jar"], "default", []⟩,
       ⟨"C", "ddl", "locC", "1.0",
         some ["home", "pack", "mods", "C.jar"], "optC", []⟩,
       ⟨"D", "mediafire", "locD", "1.0", none, "optD", []⟩] =
      some
        [⟨⟨"A", "modrinth", "locA", "1.0",
            some ["home", "pack", "mods", "A"], "default", []⟩, true, none⟩,
         ⟨⟨"B", "ddl", "locB", "1.0",
            some ["home", "pack", "mods", "B.jar"], "default", []⟩,
           false, none⟩,
         ⟨⟨"C", "ddl", "locC", "1.0", none, "optC", []⟩, false,
           some ["home", "pack", "mods", "C.jar"]⟩,
         ⟨⟨"D", "mediafire", "locD", "1.0", none, "optD", []⟩,
           false, none⟩] := by decide
  refine ⟨h, ?_⟩
  exact (download_helper_feature_gating _ _ _ _ _ h).1

/-! ## Claim C9: concurrency bound of the orchestrator

`download_helper` drains its stream with `buffer_unordered(CONCURRENCY)`
(main.rs line 971).  Its fan-out/fan-in semantics is modelled as a
transition system: a pending resolution may start only while strictly
fewer than `CONCURRENCY` are in flight, and an in-flight resolution may
finish at any time. -/

/-- Scheduler state: resolutions not yet started, in flight, finished. -/
structure OrchState where
  pending : Nat
  inFlight : Nat
  done : Nat
deriving DecidableEq, Repr

/-- One scheduler step of `buffer_unordered(CONCURRENCY)`. -/
inductive OrchStep : OrchState → OrchState → Prop where
  | start (s : OrchState) (hp : 0 < s.pending)
      (hc : s.inFlight < CONCURRENCY) :
      OrchStep s ⟨s.pending - 1, s.inFlight + 1, s.done⟩
  | finish (s : OrchState) (hf : 0 < s.inFlight) :
      OrchStep s ⟨s.pending, s.inFlight - 1, s.done + 1⟩

/-- Reflexive-transitive closure of scheduler steps. -/
inductive OrchReachable : OrchState → OrchState → Prop where
  | refl (s : OrchState) : OrchReachable s s
  | tail {s t u : OrchState} :
      OrchReachable s t → OrchStep t u → OrchReachable s u

/-- C9: starting from any number of pending items (50 included) with
nothing in flight, every reachable scheduler state has at most
`CONCURRENCY = 14` resolutions in flight. -/
theorem orchestrator_concurrency_bound (n : Nat) (s : OrchState)
    (h : OrchReachable ⟨n, 0, 0⟩ s) : s.inFlight ≤ CONCURRENCY := by
  induction h with
  | refl => exact Nat.zero_le _
  | tail hreach hstep ih =>
    cases hstep with
    | start hp hc => exact hc
    | finish hf => exact le_trans (Nat.sub_le _ _) ih

/-- Witness for C9: from 50 pending items, a state with two in-flight
resolutions is reachable and satisfies the bound. -/
theorem orchestrator_concurrency_bound_witness :
    OrchReachable ⟨50, 0, 0⟩ ⟨48, 2, 0⟩ ∧
    (⟨48, 2, 0⟩ : OrchState).inFlight ≤ CONCURRENCY := by
  have h1 : OrchStep ⟨50, 0, 0⟩ ⟨49, 1, 0⟩ :=
    OrchStep.start ⟨50, 0, 0⟩ (by decide) (by decide)
  have h2 : OrchStep ⟨49, 1, 0⟩ ⟨48, 2, 0⟩ :=
    OrchStep.start ⟨49, 1, 0⟩ (by decide) (by decide)
  have hr : OrchReachable ⟨50, 0, 0⟩ ⟨48, 2, 0⟩ :=
    OrchReachable.tail (OrchReachable.tail (OrchReachable.refl _) h1) h2
  exact ⟨hr, orchestrator_concurrency_bound 50 _ hr⟩

/-! ## Claim C3: the update diff engine (`remove_old_items`) -/

/-- The `new_items` computation of `remove_old_items` (main.rs lines
1219-1230): for each remote item, the first locally installed item with
the same name replaces it, otherwise the remote item is kept. -/
def mergeItems (items installed_items : List Item) : List Item :=
  items.map (fun item =>
    match installed_items.find? (fun ii => ii.name == item.name) with
    | some installed_item => installed_item
    | none => item)

/-- The installed items that `remove_old_items` deletes from disk
(main.rs lines 1231-1245): those not contained in `new_items`. -/
def staleItems (items installed_items : List Item) : List Item :=
  (installed_items).filter (fun x => decide (x ∉ mergeItems items installed_items))

/-- `remove_old_items` (main.rs lines 1215-1247).  Returns the merged
list together with the file paths removed from disk; `none` models the
panic on a stale installed item that has no recorded path. -/
def remove_old_items (items installed_items : List Item) :
    Option (List Item × List FsPath) :=
  if (staleItems items installed_items).all (fun x => x.path.isSome) then
    some (mergeItems items installed_items,
          (staleItems items installed_items).filterMap (fun x => x.path))
  else none

/-- C3: the update diff matches items by name.  Provided every installed
item has a recorded path (the source panics otherwise), the merged list
has one entry per remote item: the first local item of the same name when
one exists (preserving its resolved path), the remote item itself
otherwise; and every local item whose name has no remote counterpart is
dropped from the result and has its file path deleted.  The two concrete
examples of the claim are verified as stated. -/
theorem remove_old_items_spec (items installed_items : List Item)
    (hpaths : ∀ l ∈ installed_items, l.path.isSome = true) :
    (∃ result deleted,
      remove_old_items items installed_items = some (result, deleted) ∧
      result.length = items.length ∧
      (∀ i (h1 : i < items.length) (h2 : i < result.length),
        ((∃ l ∈ installed_items, l.name = (items.get ⟨i, h1⟩).name) →
          result.get ⟨i, h2⟩ ∈ installed_items ∧
          (result.get ⟨i, h2⟩).name = (items.get ⟨i, h1⟩).name) ∧
        ((∀ l ∈ installed_items, l.name ≠ (items.get ⟨i, h1⟩).name) →
          result.get ⟨i, h2⟩ = items.get ⟨i, h1⟩)) ∧
      (∀ l ∈ installed_items, (∀ r ∈ items, r.name ≠ l.name) →
        l ∉ result ∧ ∃ p, l.path = some p ∧ p ∈ deleted)) ∧
    remove_old_items
        [⟨"A", "ddl", "la", "1", none, "default", []⟩,
         ⟨"B", "ddl", "lb", "1", none, "default", []⟩]
        [⟨"A", "ddl", "la", "1", some ["home", "pack", "mods", "A.jar"],
          "default", []⟩] =
      some ([⟨"A", "ddl", "la", "1", some ["home", "pack", "mods", "A.jar"],
              "default", []⟩,
             ⟨"B", "ddl", "lb", "1", none, "default", []⟩], []) ∧
    remove_old_items
        [⟨"A", "ddl", "la", "1", none, "default", []⟩]
        [⟨"A", "ddl", "la", "1", some ["home", "pack", "mods", "A.jar"],
          "default", []⟩,
         ⟨"C", "ddl", "lc", "1", some ["home", "pack", "mods", "C.jar"],
          "default", []⟩] =
      some ([⟨"A", "ddl", "la", "1", some ["home", "pack", "mods", "A.jar"],
              "default", []⟩],
            [["home", "pack", "mods", "C.jar"]]) := by
  refine ⟨?_, by decide, by decide⟩
  have hguard :
      (staleItems items installed_items).all (fun x => x.path.isSome) = true := by
    rw [List.all_eq_true]
    intro x hx
    exact hpaths x (List.mem_of_mem_filter hx)
  refine ⟨mergeItems items installed_items,
    (staleItems items installed_items).filterMap (fun x => x.path),
    by unfold remove_old_items; rw [if_pos hguard], by simp [mergeItems],
    ?_, ?_⟩
  · intro i h1 h2
    have hmap : (mergeItems items installed_items).get ⟨i, h2⟩ =
        match installed_items.find?
            (fun ii => ii.name == (items.get ⟨i, h1⟩).name) with
        | some installed_item => installed_item
        | none => items.get ⟨i, h1⟩ := by
      simp [mergeItems]
    constructor
    · rintro ⟨l, hl, hname⟩
      have hsome : (installed_items.find?
          (fun ii => ii.name == (items.get ⟨i, h1⟩).name)).isSome := by
        rw [List.find?_isSome]
        exact ⟨l, hl, by simp [hname]⟩
      obtain ⟨ii, hii⟩ := Option.isSome_iff_exists.mp hsome
      rw [hmap]
      simp only [hii]
      have hbeq := List.find?_some hii
      exact ⟨List.mem_of_find?_eq_some hii, eq_of_beq hbeq⟩
    · intro hnone
      have hfn : installed_items.find?
          (fun ii => ii.name == (items.get ⟨i, h1⟩).name) = none := by
        rw [List.find?_eq_none]
        intro x hx hbeq
        exact hnone x hx (eq_of_beq hbeq)
      rw [hmap]
      simp only [hfn]
  · intro l hl hno
    have hmem : l ∉ mergeItems items installed_items := by
      intro hmm
      simp only [mergeItems, List.mem_map] at hmm
      obtain ⟨r, hr, heq⟩ := hmm
      cases hfind : installed_items.find? (fun ii => ii.name == r.name) with
      | some ii =>
        simp only [hfind] at heq
        have hbeq := List.find?_some hfind
        have hin : ii.name = r.name := eq_of_beq hbeq
        have hln : r.name = l.name := by rw [← heq]; exact hin.symm
        exact hno r hr hln
      | none =>
        simp only [hfind] at heq
        exact hno r hr (congrArg Item.name heq)
    have hstale : l ∈ staleItems items installed_items := by
      simp only [staleItems, List.mem_filter]
      exact ⟨hl, decide_eq_true hmem⟩
    obtain ⟨p, hpl⟩ := Option.isSome_iff_exists.mp (hpaths l hl)
    refine ⟨hmem, p, hpl, ?_⟩
    rw [List.mem_filterMap]
    exact ⟨l, hstale, hpl⟩

/-- Witness for C3: the hypothesis (all installed items carry a path)
holds at the second example, and the theorem applies there. -/
theorem remove_old_items_spec_witness :
    (∀ l ∈ [(⟨"A", "ddl", "la", "1",
        some ["home", "pack", "mods", "A.jar"], "default", []⟩ : Item),
       ⟨"C", "ddl", "lc", "1", some ["home", "pack", "mods", "C.jar"],
        "default", []⟩], l.path.isSome = true) ∧
    (remove_old_items [⟨"A", "ddl", "la", "1", none, "default", []⟩]
      [⟨"A", "ddl", "la", "1", some ["home", "pack", "mods", "A.jar"],
        "default", []⟩,
       ⟨"C", "ddl", "lc", "1", some ["home", "pack", "mods", "C.jar"],
        "default", []⟩]).isSome = true := by
  refine ⟨by decide, ?_⟩
  obtain ⟨result, deleted, heq, -⟩ :=
    (remove_old_items_spec [⟨"A", "ddl", "la", "1", none, "default", []⟩]
      [⟨"A", "ddl", "la", "1", some ["home", "pack", "mods", "A.jar"],
        "default", []⟩,
       ⟨"C", "ddl", "lc", "1", some ["home", "pack", "mods", "C.jar"],
        "default", []⟩] (by decide)).1
  rw [heq]
  rfl

/-! ## Claim C6: registry (Modrinth) resolution -/

/-- `ModrinthFile` struct from main.rs lines 434-438. -/
structure ModrinthFile where
  url : String
  filename : String
deriving DecidableEq, Repr

/-- `ModrinthObject` struct from main.rs lines 439-444. -/
structure ModrinthObject where
  version_number : String
  files : List ModrinthFile
  loaders : List String
deriving DecidableEq, Repr

/-- The selection condition of `download_from_modrinth` (main.rs lines
610-613): version string matches exactly, and the loaders list contains
the universal marker "minecraft" or the requested loader type, that check
being waived when the item category is shaderpack. -/
def modrinthMatches (version loader_type item_type : String)
    (o : ModrinthObject) : Bool :=
  o.version_number == version &&
    (o.loaders.contains "minecraft" || o.loaders.contains loader_type ||
      item_type == "shaderpack")

/-- `download_from_modrinth` (main.rs lines 579-628) from the parsed
version-list response on: scan the response in order, take the first
entry satisfying `modrinthMatches`, fetch its first file (`files[0]`,
a panic on an empty file list) and write it into the category directory;
panic (`none`) when no entry matches.  Returns the final path and the
fetched url. -/
def download_from_modrinth (dist : FsPath)
    (version loader_type item_type : String) :
    List ModrinthObject → Option (FsPath × String)
  | [] => none
  | o :: rest =>
    if modrinthMatches version loader_type item_type o then
      match o.files with
      | [] => none
      | f :: _ => some (dist ++ [f.filename], f.url)
    else download_from_modrinth dist version loader_type item_type rest

/-- C6: registry resolution selects the first version-list entry whose
version string equals the target and whose loaders contain the universal
marker or the requested loader (waived for shaderpacks), downloads that
entry's first file, and fails when no entry satisfies the condition. -/
theorem download_from_modrinth_spec (dist : FsPath)
    (version loader_type item_type : String) (objs : List ModrinthObject) :
    (∀ o f rest,
      objs.find? (modrinthMatches version loader_type item_type) = some o →
      o.files = f :: rest →
      download_from_modrinth dist version loader_type item_type objs =
        some (dist ++ [f.filename], f.url)) ∧
    (∀ p u,
      download_from_modrinth dist version loader_type item_type objs =
        some (p, u) →
      ∃ o f rest,
        objs.find? (modrinthMatches version loader_type item_type) =
          some o ∧
        o.files = f :: rest ∧ p = dist ++ [f.filename] ∧ u = f.url) ∧
    (objs.find? (modrinthMatches version loader_type item_type) = none →
      download_from_modrinth dist version loader_type item_type objs =
        none) := by
  induction objs with
  | nil =>
    refine ⟨?_, ?_, ?_⟩
    · intro o f rest hfind
      cases hfind
    · intro p u h
      cases h
    · intro _
      rfl
  | cons a rest ih =>
    by_cases hm : modrinthMatches version loader_type item_type a = true
    · refine ⟨?_, ?_, ?_⟩
      · intro o f frest hfind hfiles
        rw [List.find?_cons_of_pos _ hm] at hfind
        injection hfind with hfind
        subst hfind
        simp only [download_from_modrinth, hm, if_true, hfiles]
      · intro p u h
        simp only [download_from_modrinth, hm, if_true] at h
        cases hfa : a.files with
        | nil => rw [hfa] at h; cases h
        | cons f fs =>
          rw [hfa] at h
          injection h with h
          refine ⟨a, f, fs, List.find?_cons_of_pos _ hm, hfa, ?_, ?_⟩
          · exact (congrArg Prod.fst h).symm
          · exact (congrArg Prod.snd h).symm
      · intro hfind
        rw [List.find?_cons_of_pos _ hm] at hfind
        cases hfind
    · have hm' : ¬modrinthMatches version loader_type item_type a = true := hm
      refine ⟨?_, ?_, ?_⟩
      · intro o f frest hfind hfiles
        rw [List.find?_cons_of_neg _ hm'] at hfind
        simp only [download_from_modrinth, hm, Bool.false_eq_true, if_false]
        exact ih.1 o f frest hfind hfiles
      · intro p u h
        simp only [download_from_modrinth, hm, Bool.false_eq_true,
          if_false] at h
        obtain ⟨o, f, frest, hfind, hfiles, hp, hu⟩ := ih.2.1 p u h
        exact ⟨o, f, frest,
          by rw [List.find?_cons_of_neg _ hm']; exact hfind, hfiles, hp, hu⟩
      · intro hfind
        rw [List.find?_cons_of_neg _ hm'] at hfind
        simp only [download_from_modrinth, hm, Bool.false_eq_true, if_false]
        exact ih.2.2 hfind

/-- Witness for C6: a concrete version list where the first entry fails
the loader filter and the second matches; the second entry's first file
is downloaded.  A version with no matching entry fails. -/
theorem download_from_modrinth_spec_witness :
    ([(⟨"1.0", [⟨"u1", "f1.jar"⟩], ["forge"]⟩ : ModrinthObject),
      ⟨"1.0", [⟨"u2", "f2.jar"⟩], ["fabric"]⟩].find?
        (modrinthMatches "1.0" "fabric" "mod") =
      some ⟨"1.0", [⟨"u2", "f2.jar"⟩], ["fabric"]⟩) ∧
    download_from_modrinth ["home", "pack", "mods"] "1.0" "fabric" "mod"
      [⟨"1.0", [⟨"u1", "f1.jar"⟩], ["forge"]⟩,
       ⟨"1.0", [⟨"u2", "f2.jar"⟩], ["fabric"]⟩] =
      some (["home", "pack", "mods", "f2.jar"], "u2") ∧
    download_from_modrinth ["home", "pack", "mods"] "2.0" "fabric" "mod"
      [⟨"1.0", [⟨"u1", "f1.jar"⟩], ["forge"]⟩,
       ⟨"1.0", [⟨"u2", "f2.jar"⟩], ["fabric"]⟩] = none := by
  refine ⟨by decide, ?_, ?_⟩
  · exact (download_from_modrinth_spec ["home", "pack", "mods"] "1.0"
      "fabric" "mod"
      [⟨"1.0", [⟨"u1", "f1.jar"⟩], ["forge"]⟩,
       ⟨"1.0", [⟨"u2", "f2.jar"⟩], ["fabric"]⟩]).1
      ⟨"1.0", [⟨"u2", "f2.jar"⟩], ["fabric"]⟩ ⟨"u2", "f2.jar"⟩ []
      (by decide) rfl
  · exact (download_from_modrinth_spec ["home", "pack", "mods"] "2.0"
      "fabric" "mod"
      [⟨"1.0", [⟨"u1", "f1.jar"⟩], ["forge"]⟩,
       ⟨"1.0", [⟨"u2", "f2.jar"⟩], ["fabric"]⟩]).2.2 (by decide)

/-! ## Claim C7: loader change handling in `update` -/

/-- The loader-directory deletion of `update` (main.rs lines 1277-1299):
when the remote and local loaders differ (full `PartialEq` on the
triple), `update` deletes the directory whose branch is chosen by the
REMOTE manifest's loader type while the version numbers in the name come
from the LOCAL manifest's loader.  `some none` = loaders equal, nothing
deleted; `some (some d)` = directory `d` deleted; `none` = panic on an
unsupported loader type. -/
def update_loader_deletion (remote_loader local_loader : Loader) :
    Option (Option String) :=
  if remote_loader = local_loader then some none
  else
    match remote_loader.type with
    | "fabric" => some (some ("versions/fabric-loader-" ++
        local_loader.version ++ "-" ++ local_loader.minecraft_version))
    | "quilt" => some (some ("versions/quilt-loader-" ++
        local_loader.version ++ "-" ++ local_loader.minecraft_version))
    | _ => none

/-- Modelled from the spec (section 4.5): the previously-installed
loader's version directory is the one named by the locally installed
loader itself — its own type together with its own versions. -/
def installedLoaderDir (l : Loader) : Option String :=
  match l.type with
  | "fabric" => some ("versions/fabric-loader-" ++ l.version ++ "-" ++
      l.minecraft_version)
  | "quilt" => some ("versions/quilt-loader-" ++ l.version ++ "-" ++
      l.minecraft_version)
  | _ => none

/-- C7 evaluated at the failing input: loaders are compared by full
triple equality as claimed, but on a loader-type change (local fabric,
remote quilt) the code deletes `versions/quilt-loader-<local versions>`,
which is not the previously-installed loader's directory
`versions/fabric-loader-<local versions>` named by the local loader. -/
theorem update_loader_deletion_bug :
    update_loader_deletion ⟨"quilt", "0.20.2", "1.20.4"⟩
        ⟨"fabric", "0.15.3", "1.20.4"⟩ =
      some (some "versions/quilt-loader-0.15.3-1.20.4") ∧
    installedLoaderDir ⟨"fabric", "0.15.3", "1.20.4"⟩ =
      some "versions/fabric-loader-0.15.3-1.20.4" ∧
    ("versions/quilt-loader-0.15.3-1.20.4" : String) ≠
      "versions/fabric-loader-0.15.3-1.20.4" ∧
    update_loader_deletion ⟨"fabric", "0.15.3", "1.20.4"⟩
        ⟨"fabric", "0.15.3", "1.20.4"⟩ = some none := by
  exact ⟨by decide, by decide, by decide, by decide⟩

/-! ## Claim C10: the persisted local manifest's metadata -/

/-- The local manifest value that `install` persists (main.rs lines
1138-1171); note line 1143 copies `manifest.subtitle` into the
`description` field. -/
def make_local_manifest (manifest : Manifest)
    (mods_w_path shaderpacks_w_path resourcepacks_w_path : List Item)
    (enabled_features : List String)
    (included_files : List (String × Included))
    (src installer_path : String) : Manifest where
  manifest_version := manifest.manifest_version
  modpack_version := manifest.modpack_version
  name := manifest.name
  subtitle := manifest.subtitle
  description := manifest.subtitle
  icon := manifest.icon
  uuid := manifest.uuid
  loader := manifest.loader
  mods := mods_w_path
  shaderpacks := shaderpacks_w_path
  resourcepacks := resourcepacks_w_path
  includeList := manifest.includeList
  features := manifest.features
  enabled_features := enabled_features
  included_files := some included_files
  source := some src
  installer_path := some installer_path
  max_mem := manifest.max_mem
  min_mem := manifest.min_mem
  java_args := manifest.java_args

/-- C10: after every successful install the persisted local manifest's
`description` equals the remote manifest's `subtitle` — not its
`description` (whenever the two differ) — while name, subtitle, uuid,
loader and the memory settings equal the corresponding remote fields. -/
theorem local_manifest_description_is_subtitle (manifest : Manifest)
    (mods sps rps : List Item) (enabled : List String)
    (inc : List (String × Included)) (src ip : String) :
    (make_local_manifest manifest mods sps rps enabled inc src
        ip).description = manifest.subtitle ∧
    (manifest.subtitle ≠ manifest.description →
      (make_local_manifest manifest mods sps rps enabled inc src
        ip).description ≠ manifest.description) ∧
    (make_local_manifest manifest mods sps rps enabled inc src ip).name =
      manifest.name ∧
    (make_local_manifest manifest mods sps rps enabled inc src
        ip).subtitle = manifest.subtitle ∧
    (make_local_manifest manifest mods sps rps enabled inc src ip).uuid =
      manifest.uuid ∧
    (make_local_manifest manifest mods sps rps enabled inc src
        ip).loader = manifest.loader ∧
    (make_local_manifest manifest mods sps rps enabled inc src
        ip).max_mem = manifest.max_mem ∧
    (make_local_manifest manifest mods sps rps enabled inc src
        ip).min_mem = manifest.min_mem ∧
    (make_local_manifest manifest mods sps rps enabled inc src
        ip).java_args = manifest.java_args :=
  ⟨rfl, fun h => h, rfl, rfl, rfl, rfl, rfl, rfl, rfl⟩

/-- Witness for C10 at a concrete manifest whose subtitle and description
differ. -/
theorem local_manifest_description_is_subtitle_witness :
    (("Sub" : String) ≠ "Desc") ∧
    (make_local_manifest
      ⟨3, "1.0", "Pack", "Sub", "Desc", false, "uuid1",
        ⟨"fabric", "0.15.3", "1.20.4"⟩, [], [], [], [], [], ["default"],
        none, none, none, 2048, 512, none⟩
      [] [] [] ["default"] [] "src" "ip").description = "Sub" ∧
    (make_local_manifest
      ⟨3, "1.0", "Pack", "Sub", "Desc", false, "uuid1",
        ⟨"fabric", "0.15.3", "1.20.4"⟩, [], [], [], [], [], ["default"],
        none, none, none, 2048, 512, none⟩
      [] [] [] ["default"] [] "src" "ip").description ≠ "Desc" := by
  refine ⟨by decide, ?_, ?_⟩
  · exact (local_manifest_description_is_subtitle
      ⟨3, "1.0", "Pack", "Sub", "Desc", false, "uuid1",
        ⟨"fabric", "0.15.3", "1.20.4"⟩, [], [], [], [], [], ["default"],
        none, none, none, 2048, 512, none⟩
      [] [] [] ["default"] [] "src" "ip").1
  · exact (local_manifest_description_is_subtitle
      ⟨3, "1.0", "Pack", "Sub", "Desc", false, "uuid1",
        ⟨"fabric", "0.15.3", "1.20.4"⟩, [], [], [], [], [], ["default"],
        none, none, none, 2048, 512, none⟩
      [] [] [] ["default"] [] "src" "ip").2.1 (by decide)

/-! ## Claim C4: the `init` version gate -/

/-- The state of `<modpack_root>/manifest.json` when `init` runs. -/
inductive LocalState where
  | absent
  | unreadable (msg : String)
  | unparsable
  | parsed (m : Manifest)

/-- The fields of the `InstallerProfile` that `init` computes from local
state (main.rs lines 1454-1497). -/
structure ProfileInfo where
  installed : Bool
  update_available : Bool
  enabled_features : List String
  local_manifest : Option Manifest

/-- The outcome of `init` together with whether `get_modpack_root` ran
(it creates the modpack root directory as a side effect). -/
structure InitResult where
  outcome : Except String ProfileInfo
  rootCreated : Bool

/-- The version-mismatch message of main.rs lines 1449-1452. -/
def version_mismatch_error (v : Int) : String :=
  "Unsupported manifest version " ++ toString v

/-- `init` (main.rs lines 1426-1498) after the remote manifest has been
fetched and parsed: the version gate (line 1448) runs before
`get_modpack_root` — which creates the modpack root — and before the
installed/update detection that follows it. -/
def init (manifest : Manifest) (ls : LocalState) : InitResult :=
  if CURRENT_MANIFEST_VERSION ≠ manifest.manifest_version then
    ⟨.error (version_mismatch_error manifest.manifest_version), false⟩
  else
    match ls with
    | .unreadable msg => ⟨.error msg, true⟩
    | .absent =>
      ⟨.ok ⟨false, false,
        default_id ::
          (manifest.features.filter (fun f => f.default)).map
            (fun f => f.id), none⟩, true⟩
    | .unparsable => ⟨.ok ⟨true, false, [default_id], none⟩, true⟩
    | .parsed lm =>
      ⟨.ok ⟨true,
        decide (manifest.modpack_version ≠ lm.modpack_version),
        [default_id], some lm⟩, true⟩

/-- C4: `init` accepts a manifest with `manifest_version = 3` (the root
is created and, when local state is readable, a profile is returned),
while any other version yields the version-mismatch error with no further
processing — no root creation and no installed/update detection. -/
theorem init_version_gate (manifest : Manifest) (ls : LocalState) :
    (manifest.manifest_version ≠ 3 →
      init manifest ls =
        ⟨.error (version_mismatch_error manifest.manifest_version),
          false⟩) ∧
    (manifest.manifest_version = 3 →
      (init manifest ls).rootCreated = true ∧
      (ls = .absent →
        (init manifest ls).outcome =
          .ok ⟨false, false,
            default_id ::
              (manifest.features.filter (fun f => f.default)).map
                (fun f => f.id), none⟩) ∧
      (∀ lm, ls = .parsed lm →
        (init manifest ls).outcome =
          .ok ⟨true,
            decide (manifest.modpack_version ≠ lm.modpack_version),
            [default_id], some lm⟩)) := by
  constructor
  · intro h
    have hne : CURRENT_MANIFEST_VERSION ≠ manifest.manifest_version := by
      intro hc
      exact h (by rw [← hc]; rfl)
    unfold init
    rw [if_pos hne]
  · intro h
    have hne : ¬CURRENT_MANIFEST_VERSION ≠ manifest.manifest_version := by
      rw [h]
      intro hc
      exact hc rfl
    unfold init
    rw [if_neg hne]
    cases ls with
    | absent =>
      refine ⟨rfl, fun _ => rfl, ?_⟩
      intro lm hlm
      cases hlm
    | unreadable msg =>
      refine ⟨rfl, ?_, ?_⟩
      · intro hc; cases hc
      · intro lm hlm; cases hlm
    | unparsable =>
      refine ⟨rfl, ?_, ?_⟩
      · intro hc; cases hc
      · intro lm hlm; cases hlm
    | parsed lm0 =>
      refine ⟨rfl, ?_, ?_⟩
      · intro hc; cases hc
      · intro lm hlm
        injection hlm with hlm2
        subst hlm2
        rfl

/-- Witness for C4: a version-2 manifest is rejected with the mismatch
error and no root creation; the same manifest with version 3 is accepted
and the root is created. -/
theorem init_version_gate_witness :
    ((2 : Int) ≠ 3) ∧
    init
      ⟨2, "1.0", "Pack", "Sub", "Desc", false, "uuid1",
        ⟨"fabric", "0.15.3", "1.20.4"⟩, [], [], [], [], [], ["default"],
        none, none, none, 2048, 512, none⟩ .absent =
      ⟨.error (version_mismatch_error 2), false⟩ ∧
    (init
      ⟨3, "1.0", "Pack", "Sub", "Desc", false, "uuid1",
        ⟨"fabric", "0.15.3", "1.20.4"⟩, [], [], [], [], [], ["default"],
        none, none, none, 2048, 512, none⟩ .absent).rootCreated = true := by
  refine ⟨by decide, ?_, ?_⟩
  · exact (init_version_gate
      ⟨2, "1.0", "Pack", "Sub", "Desc", false, "uuid1",
        ⟨"fabric", "0.15.3", "1.20.4"⟩, [], [], [], [], [], ["default"],
        none, none, none, 2048, 512, none⟩ .absent).1 (by decide)
  · exact ((init_version_gate
      ⟨3, "1.0", "Pack", "Sub", "Desc", false, "uuid1",
        ⟨"fabric", "0.15.3", "1.20.4"⟩, [], [], [], [], [], ["default"],
        none, none, none, 2048, 512, none⟩ .absent).2 (by decide)).1

/-! ## Claim C5: include-bundle synchronization in `install` -/

/-- `GithubAsset` struct from main.rs lines 453-458 (the fields used by
the include sync). -/
structure GHAsset where
  name : String
  assetId : Nat
deriving DecidableEq, Repr

/-- `HashMap::get` on an association list (model of the `included_files`
and `hash_pairs` maps of main.rs). -/
def lookupAssoc {α : Type} : List (String × α) → String → Option α
  | [], _ => none
  | (k, v) :: rest, key => if k == key then some v else lookupAssoc rest key

/-- `path.starts_with(modpack_root)` (main.rs line 1082). -/
def pathStartsWith (root p : FsPath) : Bool :=
  decide (p.take root.length = root)

/-- Removal of every occurrence of a pattern from a character list
(fuel-structured so it evaluates inside the kernel); each step consumes
at least one character, so fuel = input length suffices. -/
def stripPat (pat : List Char) : Nat → List Char → List Char
  | 0, s => s
  | _ + 1, [] => []
  | fuel + 1, c :: rest =>
    if (c :: rest).take pat.length = pat then
      stripPat pat fuel ((c :: rest).drop pat.length)
    else c :: stripPat pat fuel rest

/-- Rust's `key.replace(".zip", "")` as used at main.rs line 1030:
remove every occurrence of `".zip"` from the key. -/
def stripZip (s : String) : String :=
  ⟨stripPat ".zip".toList s.toList.length s.toList⟩

/-- The deletion loop of main.rs lines 1027-1036: every recorded bundle
whose key with ".zip" stripped is not in the enabled feature set has all
of its recorded files deleted. -/
def disabledIncludeDeletions (enabled : List String)
    (inc_files : List (String × Included)) : List FsPath :=
  (inc_files.filter
    (fun kv => !(enabled.contains (stripZip kv.1)))).flatMap
    (fun kv => kv.2.files)

/-- What the per-include loop body did for one enabled include. -/
inductive IncOutcome where
  | skipped
  | kept (entry : String × Included)
  | refreshed (staleDeleted : List FsPath) (fetchedAsset : Nat)
      (entry : String × Included)
deriving DecidableEq, Repr

/-- The asset ids downloaded by an include outcome. -/
def fetchedAssets : IncOutcome → List Nat
  | .skipped => []
  | .kept _ => []
  | .refreshed _ a _ => [a]

/-- The per-include body of the include sync (main.rs lines 1062-1135)
for one enabled include: locate the release asset named `<id>.zip`
(no matching asset means the include is silently skipped); look up its
published hash in the release body (a panic when absent); when a local
record exists with the same hash, keep it — no asset fetch, no
re-extraction; otherwise delete every file of the stale record (each must
lie under the modpack root, else panic) and re-download and re-extract,
storing the new hash with the list of extracted files.  `extractOf`
abstracts the archive contents: the entries extracted from a downloaded
asset, as paths relative to the modpack root. -/
def processInclude (root : FsPath) (inc_files : List (String × Included))
    (assets : List GHAsset) (hash_pairs : List (String × String))
    (extractOf : String → List FsPath) (inc : IncludeRef) :
    Option IncOutcome :=
  match assets.find? (fun a => a.name == inc.id ++ ".zip") with
  | none => some .skipped
  | some asset =>
    match lookupAssoc hash_pairs (inc.id ++ ".zip") with
    | none => none
    | some md5 =>
      match lookupAssoc inc_files (inc.id ++ ".zip") with
      | some local_inc =>
        if local_inc.md5 == md5 then
          some (.kept (inc.id ++ ".zip", local_inc))
        else if local_inc.files.all (fun f => pathStartsWith root f) then
          some (.refreshed local_inc.files asset.assetId
            (inc.id ++ ".zip",
             ⟨md5, (extractOf (inc.id ++ ".zip")).map
               (fun rel => root ++ rel)⟩))
        else none
      | none =>
        some (.refreshed [] asset.assetId
          (inc.id ++ ".zip",
           ⟨md5, (extractOf (inc.id ++ ".zip")).map
             (fun rel => root ++ rel)⟩))

/-- The include-sync phase of `install` (main.rs lines 1019-1137): files
of disabled recorded bundles are deleted, then every enabled include is
processed in order, accumulating (new records, stale files deleted,
asset ids fetched). -/
def installIncludes (root : FsPath) (enabled : List String)
    (includeList : List IncludeRef) (inc_files : List (String × Included))
    (assets : List GHAsset) (hash_pairs : List (String × String))
    (extractOf : String → List FsPath) :
    Option (List (String × Included) × List FsPath × List Nat) :=
  if includeList.isEmpty then
    some ([], disabledIncludeDeletions enabled inc_files, [])
  else
    (includeList.filter (fun i => enabled.contains i.id)).foldlM
      (fun acc inc => do
        let oc ← processInclude root inc_files assets hash_pairs
          extractOf inc
        match oc with
        | .skipped => pure acc
        | .kept entry => pure (acc.1 ++ [entry], acc.2.1, acc.2.2)
        | .refreshed stale aid entry =>
            pure (acc.1 ++ [entry], acc.2.1 ++ stale, acc.2.2 ++ [aid]))
      ([], disabledIncludeDeletions enabled inc_files, [])

/-- C5: for an enabled include bundle whose asset and published hash are
present, a matching stored hash keeps the existing record with no asset
fetch and no re-extraction; a differing hash (or a missing record) makes
every file of the stale record be deleted before the asset is fetched and
re-extracted, and a new (hash, file list) record is stored; and every
recorded bundle whose id is not enabled has all of its recorded files
deleted. -/
theorem include_bundle_sync (root : FsPath) (enabled : List String)
    (inc_files : List (String × Included)) (assets : List GHAsset)
    (hash_pairs : List (String × String))
    (extractOf : String → List FsPath) (inc : IncludeRef)
    (asset : GHAsset) (md5 : String)
    (hasset : assets.find? (fun a => a.name == inc.id ++ ".zip") =
      some asset)
    (hmd5 : lookupAssoc hash_pairs (inc.id ++ ".zip") = some md5) :
    (∀ local_inc,
      lookupAssoc inc_files (inc.id ++ ".zip") = some local_inc →
      local_inc.md5 = md5 →
      processInclude root inc_files assets hash_pairs extractOf inc =
        some (.kept (inc.id ++ ".zip", local_inc)) ∧
      fetchedAssets (.kept (inc.id ++ ".zip", local_inc)) = []) ∧
    (∀ local_inc,
      lookupAssoc inc_files (inc.id ++ ".zip") = some local_inc →
      local_inc.md5 ≠ md5 →
      local_inc.files.all (fun f => pathStartsWith root f) = true →
      processInclude root inc_files assets hash_pairs extractOf inc =
        some (.refreshed local_inc.files asset.assetId
          (inc.id ++ ".zip",
           ⟨md5, (extractOf (inc.id ++ ".zip")).map
             (fun rel => root ++ rel)⟩))) ∧
    (lookupAssoc inc_files (inc.id ++ ".zip") = none →
      processInclude root inc_files assets hash_pairs extractOf inc =
        some (.refreshed [] asset.assetId
          (inc.id ++ ".zip",
           ⟨md5, (extractOf (inc.id ++ ".zip")).map
             (fun rel => root ++ rel)⟩))) ∧
    (∀ key incl, (key, incl) ∈ inc_files →
      enabled.contains (stripZip key) = false →
      ∀ f ∈ incl.files, f ∈ disabledIncludeDeletions enabled inc_files) := by
  refine ⟨?_, ?_, ?_, ?_⟩
  · intro local_inc hlook heq
    constructor
    · simp only [processInclude, hasset, hmd5, hlook, heq,
        beq_self_eq_true, if_true]
    · rfl
  · intro local_inc hlook hne hall
    have hbe : (local_inc.md5 == md5) = false := beq_eq_false_iff_ne.mpr hne
    simp only [processInclude, hasset, hmd5, hlook, hbe,
      Bool.false_eq_true, if_false, hall, if_true]
  · intro hlook
    simp only [processInclude, hasset, hmd5, hlook]
  · intro key incl hmem hdis f hf
    simp only [disabledIncludeDeletions, List.mem_flatMap]
    refine ⟨(key, incl), ?_, hf⟩
    rw [List.mem_filter]
    refine ⟨hmem, ?_⟩
    rw [hdis]
    rfl

/-- Witness for C5: a concrete enabled bundle with matching stored hash
is kept, and a disabled recorded bundle has its file deleted. -/
theorem include_bundle_sync_witness :
    ([(⟨"default.zip", 7⟩ : GHAsset)].find?
      (fun a => a.name == "default" ++ ".zip") = some ⟨"default.zip", 7⟩) ∧
    lookupAssoc [("default.zip", "abc")] ("default" ++ ".zip") =
      some "abc" ∧
    processInclude ["home", "pack"]
      [("default.zip", ⟨"abc", [["home", "pack", "config", "x.cfg"]]⟩)]
      [⟨"default.zip", 7⟩] [("default.zip", "abc")]
      (fun _ => [["config", "x.cfg"]]) ⟨"loc", "default"⟩ =
      some (.kept ("default" ++ ".zip",
        ⟨"abc", [["home", "pack", "config", "x.cfg"]]⟩)) ∧
    (["home", "pack", "old", "y.cfg"] : FsPath) ∈
      disabledIncludeDeletions ["default"]
        [("gone.zip", ⟨"zzz", [["home", "pack", "old", "y.cfg"]]⟩)] := by
  refine ⟨by decide, by decide, ?_, ?_⟩
  · exact ((include_bundle_sync ["home", "pack"] ["default"]
      [("default.zip", ⟨"abc", [["home", "pack", "config", "x.cfg"]]⟩)]
      [⟨"default.zip", 7⟩] [("default.zip", "abc")]
      (fun _ => [["config", "x.cfg"]]) ⟨"loc", "default"⟩
      ⟨"default.zip", 7⟩ "abc" (by decide) (by decide)).1
      ⟨"abc", [["home", "pack", "config", "x.cfg"]]⟩ (by decide) rfl).1
  · exact (include_bundle_sync ["home", "pack"] ["default"]
      [("gone.zip", ⟨"zzz", [["home", "pack", "old", "y.cfg"]]⟩)]
      [⟨"default.zip", 7⟩] [("default.zip", "abc")]
      (fun _ => [["config", "x.cfg"]]) ⟨"loc", "default"⟩
      ⟨"default.zip", 7⟩ "abc" (by decide) (by decide)).2.2.2
      "gone.zip" ⟨"zzz", [["home", "pack", "old", "y.cfg"]]⟩
      (by decide) (by decide) ["home", "pack", "old", "y.cfg"] (by decide)

/-! ## Claim C8: idempotence of repeated install runs

`install` feeds `download_helper` the item lists of the profile's remote
manifest (main.rs lines 995-1018); those lists do not change between two
runs with the same profile, so a second run sees the same unresolved
items as the first.  The update path instead feeds the first run's
outputs (the local manifest) back in. -/

/-- The no-refetch part of the claim as stated: running the orchestrator
twice with the same remote inputs issues no second-run fetch for an item
the first run already resolved. -/
def no_refetch_as_stated : Prop :=
  ∀ (enabled : List String) (root : FsPath)
    (resolve : Item → Option FsPath) (items : List Item)
    (rs1 rs2 : List DLResult),
    download_helper enabled root resolve items = some rs1 →
    download_helper enabled root resolve items = some rs2 →
    ∀ n ∈ resolvedBy rs1, n ∉ resolvedBy rs2

/-- Counterexample to C8 as stated: with one enabled unresolved item,
both runs on the unchanged remote manifest fetch it — the second run
re-fetches the item the first run resolved, because the input item list
still has `path = None`. -/
theorem no_refetch_as_stated_false : ¬no_refetch_as_stated := by
  intro h
  have hrun : download_helper ["default"] ["home", "pack"]
      (fun _ => some ["home", "pack", "mods", "a.jar"])
      [⟨"A", "ddl", "la", "1", none, "default", []⟩] =
      some [⟨⟨"A", "ddl", "la", "1",
        some ["home", "pack", "mods", "a.jar"], "default", []⟩,
        true, none⟩] := by decide
  have hno := h ["default"] ["home", "pack"]
    (fun _ => some ["home", "pack", "mods", "a.jar"])
    [⟨"A", "ddl", "la", "1", none, "default", []⟩] _ _ hrun hrun
    "A" (by decide)
  exact hno (by decide)

/-- One re-run of the per-item body on its own output is a no-op: no
fetch, no deletion, item unchanged (resolver outputs land under the
modpack root, as all three source resolvers do). -/
theorem processItem_idempotent (enabled : List String) (root : FsPath)
    (resolve : Item → Option FsPath)
    (hres : ∀ it q, resolve it = some q → grandParent q = some root)
    (it : Item) (r : DLResult)
    (h : processItem enabled root resolve it = some r) :
    processItem enabled root resolve r.item = some ⟨r.item, false, none⟩ := by
  cases hp : it.path with
  | none =>
    cases hen : enabled.contains it.id with
    | true =>
      simp only [processItem, hp, hen, Option.isNone_none, Bool.and_self,
        if_true] at h
      cases hres0 : resolve it with
      | none => rw [hres0] at h; cases h
      | some q =>
        rw [hres0] at h
        injection h with h
        subst h
        have hv : validateOk root { it with path := some q } = true := by
          show decide (grandParent q = some root) = true
          exact decide_eq_true (hres it q hres0)
        simp [processItem, hv, hen]
        exact List.mem_of_elem_eq_true hen
    | false =>
      have hv : validateOk root it = true := by
        unfold validateOk; rw [hp]
      simp only [processItem, hp, hen, Option.isNone_none, Bool.and_false,
        Bool.false_eq_true, if_false, hv, if_true, Bool.not_false,
        Option.isSome_none, Bool.and_false] at h
      injection h with h
      subst h
      simp [processItem, hp, hen, hv]
      intro hmem
      have hc : enabled.contains it.id = true :=
        List.elem_eq_true_of_mem hmem
      rw [hc] at hen
      exact Bool.noConfusion hen
  | some p =>
    have hno : it.path.isNone = false := by rw [hp]; rfl
    simp only [processItem, hno, Bool.false_and, Bool.false_eq_true,
      if_false] at h
    cases hv : validateOk root it with
    | false => rw [hv] at h; cases h
    | true =>
      rw [hv] at h
      simp only [if_true] at h
      cases hen : enabled.contains it.id with
      | true =>
        rw [hen] at h
        simp only [Bool.not_true, Bool.false_and, Bool.false_eq_true,
          if_false] at h
        injection h with h
        subst h
        simp [processItem, hno, hv, hen]
        intro hmem
        exact absurd (List.mem_of_elem_eq_true hen) hmem
      | false =>
        rw [hen] at h
        have hso : it.path.isSome = true := by rw [hp]; rfl
        simp only [Bool.not_false, Bool.true_and, hso, if_true] at h
        injection h with h
        subst h
        have hv2 : validateOk root { it with path := none } = true := rfl
        simp [processItem, hen, hv2]
        intro hmem
        have hc : enabled.contains it.id = true :=
          List.elem_eq_true_of_mem hmem
        rw [hc] at hen
        exact Bool.noConfusion hen

/-- No item of a cleared result list counts as fetched. -/
theorem resolvedBy_map_cleared (l : List DLResult) :
    resolvedBy (l.map (fun r => ⟨r.item, false, none⟩)) = [] := by
  induction l with
  | nil => rfl
  | cons a t ih =>
    simp only [List.map_cons, resolvedBy] at ih ⊢
    rw [List.filter_cons_of_neg]
    · exact ih
    · intro hc
      exact Bool.noConfusion hc

/-- Clearing the bookkeeping fields preserves the items. -/
theorem map_item_cleared (l : List DLResult) :
    (l.map (fun r => (⟨r.item, false, none⟩ : DLResult))).map
      (fun r => r.item) = l.map (fun r => r.item) := by
  induction l with
  | nil => rfl
  | cons a t ih => simp only [List.map_cons, ih]

/-- C8 amended: re-running the orchestrator on the item lists produced by
a first successful run — which is what the second install sees along the
update path: items whose path is set — succeeds, changes no item, issues
no fetch and deletes no file; hence an identical local manifest value.
As literally stated (same unresolved remote inputs twice), the second run
re-fetches resolved items: see the counterexample. -/
theorem download_helper_idempotent (enabled : List String) (root : FsPath)
    (resolve : Item → Option FsPath)
    (hres : ∀ it q, resolve it = some q → grandParent q = some root) :
    ∀ (items : List Item) (rs : List DLResult),
    download_helper enabled root resolve items = some rs →
    download_helper enabled root resolve (rs.map (fun r => r.item)) =
      some (rs.map (fun r => ⟨r.item, false, none⟩)) ∧
    resolvedBy (rs.map (fun r => ⟨r.item, false, none⟩)) = [] ∧
    (rs.map (fun r => (⟨r.item, false, none⟩ : DLResult))).map
      (fun r => r.item) = rs.map (fun r => r.item) := by
  intro items
  induction items with
  | nil =>
    intro rs h
    simp only [download_helper, List.mapM_nil, pure, Option.some.injEq] at h
    subst h
    exact ⟨rfl, rfl, rfl⟩
  | cons a t ih =>
    intro rs h
    simp only [download_helper, List.mapM_cons] at h
    cases hfa : processItem enabled root resolve a with
    | none => rw [hfa] at h; simp at h
    | some b =>
      rw [hfa] at h
      cases hml : t.mapM (processItem enabled root resolve) with
      | none => rw [hml] at h; simp at h
      | some bs =>
        rw [hml] at h
        simp only [Option.bind_eq_bind, Option.some_bind, pure,
          Option.some.injEq] at h
        subst h
        obtain ⟨ih1, -, -⟩ := ih bs hml
        refine ⟨?_, resolvedBy_map_cleared _, map_item_cleared _⟩
        simp only [List.map_cons, download_helper, List.mapM_cons]
        rw [processItem_idempotent enabled root resolve hres a b hfa]
        simp only [download_helper] at ih1
        rw [ih1]
        rfl

/-- Witness for C8 (amended theorem) at a concrete input: one resolved
item run through the orchestrator again is kept as-is with no fetch. -/
theorem download_helper_idempotent_witness :
    download_helper ["default"] ["home", "pack"]
      (fun _ => some ["home", "pack", "mods", "a.jar"])
      [⟨"A", "ddl", "la", "1", some ["home", "pack", "mods", "a.jar"],
        "default", []⟩] =
      some [⟨⟨"A", "ddl", "la", "1",
        some ["home", "pack", "mods", "a.jar"], "default", []⟩,
        false, none⟩] ∧
    resolvedBy [⟨⟨"A", "ddl", "la", "1",
      some ["home", "pack", "mods", "a.jar"], "default", []⟩,
      false, none⟩] = [] := by
  have h1 : download_helper ["default"] ["home", "pack"]
      (fun _ => some ["home", "pack", "mods", "a.jar"])
      [⟨"A", "ddl", "la", "1", none, "default", []⟩] =
      some [⟨⟨"A", "ddl", "la", "1",
        some ["home", "pack", "mods", "a.jar"], "default", []⟩,
        true, none⟩] := by decide
  have hres : ∀ (it : Item) (q : FsPath),
      (fun (_ : Item) =>
        some ["home", "pack", "mods", "a.jar"]) it = some q →
      grandParent q = some ["home", "pack"] := by
    intro it q hq
    injection hq with hq
    subst hq
    decide
  have h2 := download_helper_idempotent ["default"] ["home", "pack"]
    (fun _ => some ["home", "pack", "mods", "a.jar"]) hres
    [⟨"A", "ddl", "la", "1", none, "default", []⟩]
    [⟨⟨"A", "ddl", "la", "1",
      some ["home", "pack", "mods", "a.jar"], "default", []⟩,
      true, none⟩] h1
  exact ⟨h2.1, h2.2.1⟩

end Installer
